import Mathlib

/-!
Verification of `src/scatterer_control.py` (exact controllability solver for
the discretized scalar wave equation on a 2-D mesh with a scattering obstacle).

The numeric core of the program is embedded shallowly over exact rational
arithmetic: numpy vectors become functions out of `Fin`, sparse matrices
become `Matrix`, and the scripted top level becomes explicit state passing.
The mesh and the transcendental helpers (`math.sin`, `math.cos`, `math.sqrt`)
are supplied by a context structure, since the mesh generator (`utils.mesh`)
is outside the sources and the trigonometric functions have no exact rational
counterpart; everything downstream of that context is translated directly
from the Python source.
-/

namespace ScattererControl

/-- Record kept per outer-boundary edge (dataclass `BoundaryEdgeInfo` in the
source): index of the unique triangle the edge belongs to, the edge length,
and the incidence orientation entry.  The source stores the orientation as the
integer incidence-matrix entry; it is embedded as a rational since it is only
ever used in arithmetic. -/
structure BoundaryEdgeInfo (nF : ℕ) where
  dualVertIdx : Fin nF
  length : ℚ
  orientation : ℚ

/-- Modelled from the spec: the ambient configuration of the run.  The mesh
generator `utils.mesh` is not among the sources, so the mesh-derived data the
core consumes (incidence operator `d1` of dimension 1, diagonal Hodge stars
`star2` and `star1inv`, vertex/circumcenter coordinates, the two named
boundary edge groups and the per-outer-edge info list) is taken as given,
following section 3 of the spec.  `dt`, `stepsPerPeriod` and the incoming
wave parameters are the global simulation parameters of the script; since the
real values involve π, they are carried symbolically as rationals.  `sinQ`,
`cosQ` and `sqrtQ` stand for `math.sin`, `math.cos` and `math.sqrt`. -/
structure Ctx where
  nF : ℕ
  nE : ℕ
  d1 : Matrix (Fin nF) (Fin nE) ℚ
  star2 : Fin nF → ℚ
  star1inv : Fin nE → ℚ
  dt : ℚ
  stepsPerPeriod : ℕ
  innerBoundEdges : List (Fin nE)
  outerBound : List (Fin nE × BoundaryEdgeInfo nF)
  incWaveVector : ℚ × ℚ
  incAngularVel : ℚ
  vertices : ℕ → ℚ × ℚ
  edgeVerts : Fin nE → ℕ × ℕ
  circumcenter : Fin nF → ℚ × ℚ
  sinQ : ℚ → ℚ
  cosQ : ℚ → ℚ
  sqrtQ : ℚ → ℚ

/-- Time stepping matrix `p_step_mat = dt * cmp_complex[2].star * cmp_complex[1].d`
(source line 143). -/
def pStepMat (c : Ctx) : Matrix (Fin c.nF) (Fin c.nE) ℚ :=
  c.dt • (Matrix.diagonal c.star2 * c.d1)

/-- Time stepping matrix `q_step_mat = dt * cmp_complex[1].star_inv * cmp_complex[1].d.T`
(source line 144). -/
def qStepMat (c : Ctx) : Matrix (Fin c.nE) (Fin c.nF) ℚ :=
  c.dt • (Matrix.diagonal c.star1inv * c.d1.transpose)

/-- Planar dot product `np.dot` on coordinate pairs. -/
def dot2 (a b : ℚ × ℚ) : ℚ := a.1 * b.1 + a.2 * b.2

/-- Wave-vector dot first endpoint of an edge (`kdotp` in `eval_inc_wave_flux`). -/
def edgeKdotp (c : Ctx) (e : Fin c.nE) : ℚ :=
  dot2 c.incWaveVector (c.vertices (c.edgeVerts e).1)

/-- Edge vector `l = p[1] - p[0]` in `eval_inc_wave_flux`. -/
def edgeVec (c : Ctx) (e : Fin c.nE) : ℚ × ℚ :=
  let p0 := c.vertices (c.edgeVerts e).1
  let p1 := c.vertices (c.edgeVerts e).2
  (p1.1 - p0.1, p1.2 - p0.2)

/-- Wave-vector dot edge vector (`kdotl` in `eval_inc_wave_flux`): the
denominator of the unguarded branch. -/
def edgeKdotl (c : Ctx) (e : Fin c.nE) : ℚ :=
  dot2 c.incWaveVector (edgeVec c e)

/-- Wave-vector dot edge normal (`kdotn` in `eval_inc_wave_flux`). -/
def edgeKdotn (c : Ctx) (e : Fin c.nE) : ℚ :=
  dot2 c.incWaveVector ((edgeVec c e).2, -(edgeVec c e).1)

/-- Evaluate the pressure of the incoming plane wave at a point
(`eval_inc_wave_pressure`, source lines 148-153). -/
def eval_inc_wave_pressure (c : Ctx) (t : ℚ) (position : ℚ × ℚ) : ℚ :=
  c.incAngularVel * c.sinQ (c.incAngularVel * t - dot2 c.incWaveVector position)

/-- Line integral of the incoming wave's area flux over an edge
(`eval_inc_wave_flux`, source lines 156-172).  When `|kdotl| < 1e-5` the
closed-form limit is returned and no division happens; otherwise the
denominator of the division is `kdotl`, of magnitude at least `1e-5`. -/
def eval_inc_wave_flux (c : Ctx) (t : ℚ) (e : Fin c.nE) : ℚ :=
  let waveAngle := c.incAngularVel * t
  if |edgeKdotl c e| < 1 / 100000 then
    -edgeKdotn c e * c.sinQ (waveAngle - edgeKdotp c e)
  else
    edgeKdotn c e / edgeKdotl c e *
      (c.cosQ (waveAngle - edgeKdotp c e) - c.cosQ (waveAngle - edgeKdotp c e - edgeKdotl c e))

/-- State vector with named parts (dataclass `State` in the source):
`pressure` lives on faces, `flux` on edges. -/
structure State (c : Ctx) where
  pressure : Fin c.nF → ℚ
  flux : Fin c.nE → ℚ

/-- Method `State.scaled` (source line 186). -/
def State.scaled {c : Ctx} (s : State c) (a : ℚ) : State c :=
  ⟨a • s.pressure, a • s.flux⟩

/-- Method `State.dot` (source line 189): sum of the two Euclidean inner
products. -/
def State.dot {c : Ctx} (s other : State c) : ℚ :=
  Matrix.dotProduct s.pressure other.pressure + Matrix.dotProduct s.flux other.flux

/-- Method `State.energy` (source line 192): half the squared norm. -/
def State.energy {c : Ctx} (s : State c) : ℚ := 1 / 2 * s.dot s

/-- Method `State.__add__` (source line 198). -/
def State.add {c : Ctx} (s other : State c) : State c :=
  ⟨s.pressure + other.pressure, s.flux + other.flux⟩

/-- Method `State.__sub__` (source line 203). -/
def State.sub {c : Ctx} (s other : State c) : State c :=
  ⟨s.pressure - other.pressure, s.flux - other.flux⟩

/-- Method `State.__neg__` (source line 208). -/
def State.neg {c : Ctx} (s : State c) : State c :=
  ⟨-s.pressure, -s.flux⟩

/-- Effect of a Python loop `for a in l: f[key a] = val a` on an array `f`:
a left fold of single-index overwrites. -/
def overwriteList {n : ℕ} {α : Type} (f : Fin n → ℚ) (l : List α)
    (key : α → Fin n) (val : α → ℚ) : Fin n → ℚ :=
  l.foldl (fun g a => Function.update g (key a) (val a)) f

/-- Forward solver (dataclass `ForwardSolve`): a state together with the
current time, initially 0. -/
structure ForwardSolve (c : Ctx) where
  state : State c
  t : ℚ := 0

/-- One timestep of the forward equation (`ForwardSolve.step`, source lines
306-326): advance `t`, update pressure, update flux, then overwrite the flux
on the inner boundary with the scaled incoming wave and on the outer boundary
with the absorbing condition. -/
def ForwardSolve.step {c : Ctx} (sv : ForwardSolve c) (source_term_scaling : ℚ → ℚ) :
    ForwardSolve c :=
  let t := sv.t + c.dt
  let pressure := sv.state.pressure + (pStepMat c).mulVec sv.state.flux
  let t_at_w := t + 1 / 2 * c.dt
  let flux0 := sv.state.flux + (qStepMat c).mulVec pressure
  let flux1 := overwriteList flux0 c.innerBoundEdges id
    (fun e => source_term_scaling t_at_w * eval_inc_wave_flux c t_at_w e)
  let flux2 := overwriteList flux1 c.outerBound Prod.fst
    (fun pr => -pressure pr.2.dualVertIdx * pr.2.length * pr.2.orientation)
  ⟨⟨pressure, flux2⟩, t⟩

/-- Backward solver (dataclass `BackwardSolve`): just a state. -/
structure BackwardSolve (c : Ctx) where
  state : State c

/-- One timestep of the backward (adjoint) equation (`BackwardSolve.step`,
source lines 333-349): update flux with the transposed pressure operator,
zero the inner boundary, apply the sign-flipped absorbing condition on the
outer boundary, and only then update pressure from the new flux. -/
def BackwardSolve.step {c : Ctx} (sv : BackwardSolve c) : BackwardSolve c :=
  let flux0 := sv.state.flux + (pStepMat c).transpose.mulVec sv.state.pressure
  let flux1 := overwriteList flux0 c.innerBoundEdges id (fun _ => 0)
  let flux2 := overwriteList flux1 c.outerBound Prod.fst
    (fun pr => sv.state.pressure pr.2.dualVertIdx * pr.2.length * pr.2.orientation)
  let pressure := sv.state.pressure + (qStepMat c).transpose.mulVec flux2
  ⟨⟨pressure, flux2⟩⟩

/-- Run the forward solver for a given number of steps (the
`for _ in range(n): sim.step(...)` loops of the source). -/
def runForward {c : Ctx} (scaling : ℚ → ℚ) : ℕ → ForwardSolve c → ForwardSolve c
  | 0, sv => sv
  | n + 1, sv => runForward scaling n (sv.step scaling)

/-- Run the backward solver for a given number of steps. -/
def runBackward {c : Ctx} : ℕ → BackwardSolve c → BackwardSolve c
  | 0, sv => sv
  | n + 1, sv => runBackward n sv.step

/-- Gradient of the cost function plus related measurements (dataclass
`GradientResult`). -/
structure GradientResult (c : Ctx) where
  gradient : State c
  forward_diff : State c

/-- Method `GradientResult.energy` (source line 360). -/
def GradientResult.energy {c : Ctx} (r : GradientResult c) : ℚ :=
  r.forward_diff.energy

/-- Gradient of the cost function via the adjoint state method
(`compute_cost_gradient`, source lines 364-402). -/
def compute_cost_gradient {c : Ctx} (initial_state : State c)
    (use_source_terms : Bool) : GradientResult c :=
  let source_scaling : ℚ → ℚ := if use_source_terms then fun _ => 1 else fun _ => 0
  let sim_fwd := runForward source_scaling c.stepsPerPeriod ⟨initial_state, 0⟩
  let final_state := sim_fwd.state
  let fwd_diff := final_state.sub initial_state
  let bwd_init_q := -fwd_diff.flux
  let bwd_init_state : State c :=
    ⟨(qStepMat c).transpose.mulVec bwd_init_q - fwd_diff.pressure, bwd_init_q⟩
  let sim_bwd := runBackward (c.stepsPerPeriod - 1) ⟨bwd_init_state⟩
  let final_bwd_state : State c :=
    ⟨-sim_bwd.state.pressure,
     -sim_bwd.state.flux - (pStepMat c).transpose.mulVec sim_bwd.state.pressure⟩
  ⟨final_bwd_state.sub fwd_diff, fwd_diff⟩

/-- Control energy of an initial state (`compute_control_energy`, source
lines 405-411): one forward period from a copy of the state, with the step's
default source scaling (constant 1), then the energy of the periodicity
defect. -/
def compute_control_energy {c : Ctx} (state : State c) : ℚ :=
  let period_sim := runForward (fun _ => 1) c.stepsPerPeriod ⟨state, 0⟩
  (period_sim.state.sub state).energy

/-- Relative residual threshold `stop_condition_sq = (1e-2) ** 2` (source
line 443). -/
def stop_condition_sq : ℚ := (1 / 100) ^ 2

/-- Checked division: `none` models the non-finite value a Python float
division produces when the denominator is zero. -/
def cdiv (a b : ℚ) : Option ℚ := if b = 0 then none else some (a / b)

/-- State of the conjugate gradient optimization between iterations: the
mutable script variables of source lines 444-455 (the cached squared residual
norm `resid_norm_sq` included) together with the three measurement lists. -/
structure CGState (c : Ctx) where
  approx_solution : State c
  residual : State c
  resid_norm_sq : ℚ
  search_dir : State c
  control_energies : List ℚ
  resid_norms : List ℚ
  a_inner_prods : List ℚ

/-- One iteration of the conjugate gradient loop (source lines 460-475).
The step length divides by `resid_update.dot search_dir` with no guard; the
division is checked, with `none` standing for the non-finite values the
source would propagate. -/
def cgIter {c : Ctx} (s : CGState c) : Option (CGState c) :=
  let resid_update := (compute_cost_gradient s.search_dir false).gradient
  (cdiv s.resid_norm_sq (resid_update.dot s.search_dir)).map fun solution_update_param =>
    let approx_solution := s.approx_solution.add (s.search_dir.scaled solution_update_param)
    let residual := s.residual.sub (resid_update.scaled solution_update_param)
    let next_resid_norm_sq := residual.dot residual
    let resid_norm_proportion := next_resid_norm_sq / s.resid_norm_sq
    let search_dir := residual.add (s.search_dir.scaled resid_norm_proportion)
    { approx_solution := approx_solution
      residual := residual
      resid_norm_sq := next_resid_norm_sq
      search_dir := search_dir
      control_energies := s.control_energies ++ [compute_control_energy approx_solution]
      resid_norms := s.resid_norms ++ [c.sqrtQ next_resid_norm_sq]
      a_inner_prods := s.a_inner_prods ++ [resid_update.dot search_dir] }

/-- Iterated conjugate gradient steps, propagating a division failure. -/
def cgIterN {c : Ctx} : ℕ → CGState c → Option (CGState c)
  | 0, s => some s
  | n + 1, s => (cgIter s).bind (cgIterN n)

/-- The conjugate gradient loop (source lines 460-479): at most `fuel`
iterations (`args.max_iters`), stopping as soon as the relative squared
residual norm drops below `stop_condition_sq`; returns the final state
together with `step_count`, the number of iterations actually performed.
Neither exit path is an error in the source; `none` arises only from the
checked division inside an iteration. -/
def cgLoop {c : Ctx} (initial_resid_norm_sq : ℚ) :
    ℕ → CGState c → Option (CGState c × ℕ)
  | 0, s => some (s, 0)
  | fuel + 1, s =>
    match cgIter s with
    | none => none
    | some s' =>
      if s'.resid_norm_sq / initial_resid_norm_sq < stop_condition_sq then
        some (s', 1)
      else
        (cgLoop initial_resid_norm_sq fuel s').map fun r => (r.1, r.2 + 1)

/-!
Specification-side formulations.  Each of the following definitions is
written from the wording of the spec (sections 4.2-4.5), to be compared with
the source-translated definitions above.
-/

/-- Lookup of the outer-boundary record attached to an edge: the first pair
of `outerBound` whose edge index matches. -/
def outerLookup (c : Ctx) (e : Fin c.nE) : Option (BoundaryEdgeInfo c.nF) :=
  (c.outerBound.find? fun pr => pr.1 == e).map Prod.snd

/-- The forward step as the spec describes it (claim about section 4.2):
advance time, whole-vector pressure update with `P`, evaluate the half-offset
time, whole-vector flux update with `Q`, then overwrite the flux at every
inner-boundary edge with the scaled incoming wave and at every outer-boundary
edge with the absorbing condition. -/
def forwardStepSpec {c : Ctx} (sv : ForwardSolve c) (source_scaling : ℚ → ℚ) :
    ForwardSolve c :=
  let t := sv.t + c.dt
  let pressure := sv.state.pressure + (pStepMat c).mulVec sv.state.flux
  let t_half := t + 1 / 2 * c.dt
  let fluxQ := sv.state.flux + (qStepMat c).mulVec pressure
  let fluxInner := fun e =>
    if e ∈ c.innerBoundEdges then source_scaling t_half * eval_inc_wave_flux c t_half e
    else fluxQ e
  let flux := fun e =>
    match outerLookup c e with
    | some info => -pressure info.dualVertIdx * info.length * info.orientation
    | none => fluxInner e
  ⟨⟨pressure, flux⟩, t⟩

/-- The backward step as the spec describes it (claim about section 4.3):
flux update with `P` transposed first, inner boundary zeroed, outer boundary
overwritten with the sign-flipped absorbing condition, and only then the
pressure update with `Q` transposed applied to the new flux. -/
def backwardStepSpec {c : Ctx} (sv : BackwardSolve c) : BackwardSolve c :=
  let fluxP := sv.state.flux + (pStepMat c).transpose.mulVec sv.state.pressure
  let fluxInner := fun e => if e ∈ c.innerBoundEdges then 0 else fluxP e
  let flux := fun e =>
    match outerLookup c e with
    | some info => sv.state.pressure info.dualVertIdx * info.length * info.orientation
    | none => fluxInner e
  let pressure := sv.state.pressure + (qStepMat c).transpose.mulVec flux
  ⟨⟨pressure, flux⟩⟩

/-- The gradient computation as the spec describes it (section 4.4): forward
for `stepsPerPeriod` steps with source scaling constantly 1 or 0, the
periodicity defect, the backward initial condition, `stepsPerPeriod - 1`
backward steps, the negated recombination, and the returned pair. -/
def computeCostGradientSpec {c : Ctx} (initial_state : State c)
    (use_source_terms : Bool) : GradientResult c :=
  let scaling : ℚ → ℚ := if use_source_terms then fun _ => 1 else fun _ => 0
  let final_state := ((fun sv : ForwardSolve c => sv.step scaling)^[c.stepsPerPeriod]
    ⟨initial_state, 0⟩).state
  let forward_diff := final_state.sub initial_state
  let bwd_flux0 := -forward_diff.flux
  let bwd_pressure0 := (qStepMat c).transpose.mulVec bwd_flux0 - forward_diff.pressure
  let bwd := ((fun sv : BackwardSolve c => sv.step)^[c.stepsPerPeriod - 1]
    ⟨⟨bwd_pressure0, bwd_flux0⟩⟩).state
  let final_bwd : State c :=
    ⟨-bwd.pressure, -bwd.flux - (pStepMat c).transpose.mulVec bwd.pressure⟩
  ⟨final_bwd.sub forward_diff, forward_diff⟩

/-!
Definitions for the adjoint analysis of claim C1.  The homogeneous forward
step is a linear map of the state; the following definitions express its
matrix structure: `boundaryMask` zeroes every boundary edge, `outerMat` is
the linear operator the outer absorbing overwrite applies to the pressure.
-/

/-- Diagonal mask that zeroes every edge whose flux the forward and backward
steps overwrite (inner boundary and outer boundary edges). -/
def boundaryMask (c : Ctx) (e : Fin c.nE) : ℚ :=
  if e ∈ c.innerBoundEdges then 0
  else
    match outerLookup c e with
    | some _ => 0
    | none => 1

/-- Pointwise product with the boundary mask. -/
def maskMul (c : Ctx) (q : Fin c.nE → ℚ) : Fin c.nE → ℚ :=
  fun e => boundaryMask c e * q e

/-- Matrix of the outer absorbing overwrite of the forward step: row `e` of
`outerMat c` applied to a pressure vector gives
`-pressure[dualVertIdx] * length * orientation` when `e` is an outer
boundary edge and `0` otherwise. -/
def outerMat (c : Ctx) : Matrix (Fin c.nE) (Fin c.nF) ℚ :=
  Matrix.of fun e i =>
    match outerLookup c e with
    | some info => if i = info.dualVertIdx then -(info.length * info.orientation) else 0
    | none => 0

/-- One homogeneous forward step (source scaling constantly 0), viewed as a
map on states; the time argument is irrelevant to the state it returns. -/
def forwardHomStep {c : Ctx} (t : ℚ) (u : State c) : State c :=
  (ForwardSolve.step ⟨u, t⟩ fun _ => 0).state

/-- The exact adjoint of the homogeneous forward step with respect to
`State.dot`: with `P`, `Q` the step matrices, `M` the boundary mask and `R`
the outer absorbing operator, it maps `v` to the state with pressure
`p1 = v.pressure + Q.T (M v.flux) + R.T v.flux` and flux
`M v.flux + P.T p1`. -/
def forwardHomAdjoint {c : Ctx} (v : State c) : State c :=
  let p1 := v.pressure + (qStepMat c).transpose.mulVec (maskMul c v.flux)
    + (outerMat c).transpose.mulVec v.flux
  ⟨p1, maskMul c v.flux + (pStepMat c).transpose.mulVec p1⟩

/-- The conjugate-gradient iteration as the spec describes it (section 4.5,
claim about the loop body): `Aw = compute_cost_gradient(search_dir, false).gradient`,
step length `alpha = (residual.residual)/(Aw.search_dir)`, solution and
residual updates, `beta = (residual_new.residual_new)/(residual_old.residual_old)`,
new search direction, and the three recorded measurements — the conjugacy
diagnostic being `Aw.dot search_dir_new`, against the updated direction. -/
def cgSpecStep {c : Ctx} (s : CGState c) : CGState c :=
  let Aw := (compute_cost_gradient s.search_dir false).gradient
  let alpha := s.residual.dot s.residual / Aw.dot s.search_dir
  let guess := s.approx_solution.add (s.search_dir.scaled alpha)
  let residual := s.residual.sub (Aw.scaled alpha)
  let beta := residual.dot residual / s.residual.dot s.residual
  let search_dir := residual.add (s.search_dir.scaled beta)
  { approx_solution := guess
    residual := residual
    resid_norm_sq := residual.dot residual
    search_dir := search_dir
    control_energies := s.control_energies ++ [compute_control_energy guess]
    resid_norms := s.resid_norms ++ [c.sqrtQ (residual.dot residual)]
    a_inner_prods := s.a_inner_prods ++ [Aw.dot search_dir] }

/-!
Aliasing model.  Python numpy arrays are mutable objects; to reason about
which arrays a call mutates, states are rendered as pairs of array ids into
a store.  `State.copy()` and every `State(...)` construction allocate fresh
arrays; the solvers' `+=`/`[...] =` statements write, in place, the arrays
of the solver's own state.  Each heap operation below records the net effect
of the corresponding block of Python statements on the arrays.
-/

/-- Reference held by a Python `State` object: the ids of its pressure array
and of its flux array in the store. -/
structure HRef where
  pId : ℕ
  qId : ℕ

/-- Store of numpy arrays: pressure-sized and flux-sized arrays by id, plus
the next fresh id. -/
structure Store (c : Ctx) where
  pMem : ℕ → Fin c.nF → ℚ
  qMem : ℕ → Fin c.nE → ℚ
  next : ℕ

/-- Read the value of a referenced state. -/
def Store.readState {c : Ctx} (s : Store c) (r : HRef) : State c :=
  ⟨s.pMem r.pId, s.qMem r.qId⟩

/-- Overwrite, in place, the two arrays a reference points to. -/
def Store.writeState {c : Ctx} (s : Store c) (r : HRef) (v : State c) : Store c :=
  ⟨Function.update s.pMem r.pId v.pressure, Function.update s.qMem r.qId v.flux, s.next⟩

/-- Allocate two fresh arrays holding the given values (the effect of
`State(...)` or `state.copy()`). -/
def Store.allocState {c : Ctx} (s : Store c) (v : State c) : HRef × Store c :=
  (⟨s.next, s.next + 1⟩,
   ⟨Function.update s.pMem s.next v.pressure,
    Function.update s.qMem (s.next + 1) v.flux, s.next + 2⟩)

/-- Net effect of `ForwardSolve.step` on the heap: the solver's own two
arrays are overwritten with the stepped values. -/
def forwardStepM {c : Ctx} (scaling : ℚ → ℚ) (r : HRef) (t : ℚ) (s : Store c) :
    ℚ × Store c :=
  let sv := ForwardSolve.step ⟨s.readState r, t⟩ scaling
  (sv.t, s.writeState r sv.state)

/-- The forward solver loop on the heap, threading the solver time. -/
def runForwardM {c : Ctx} (scaling : ℚ → ℚ) : ℕ → HRef → ℚ → Store c → ℚ × Store c
  | 0, _, t, s => (t, s)
  | n + 1, r, t, s =>
    let ts := forwardStepM scaling r t s
    runForwardM scaling n r ts.1 ts.2

/-- Net effect of `BackwardSolve.step` on the heap. -/
def backwardStepM {c : Ctx} (r : HRef) (s : Store c) : Store c :=
  s.writeState r (BackwardSolve.step ⟨s.readState r⟩).state

/-- The backward solver loop on the heap. -/
def runBackwardM {c : Ctx} : ℕ → HRef → Store c → Store c
  | 0, _, s => s
  | n + 1, r, s => runBackwardM n r (backwardStepM r s)

/-- Heap-level rendering of `compute_cost_gradient` (source lines 364-402):
the forward solver works on `initial_state.copy()`; `fwd_diff`,
`bwd_init_state`, its copy for the backward solver, and the final
recombination each construct fresh arrays; the caller's arrays are only ever
read.  Returns references to the gradient and the forward difference. -/
def compute_cost_gradientM {c : Ctx} (initial_state : HRef) (use_source_terms : Bool)
    (s0 : Store c) : (HRef × HRef) × Store c :=
  let source_scaling : ℚ → ℚ := if use_source_terms then fun _ => 1 else fun _ => 0
  let a1 := s0.allocState (s0.readState initial_state)
  let simRef := a1.1
  let s2 := (runForwardM source_scaling c.stepsPerPeriod simRef 0 a1.2).2
  let fwd_diff := (s2.readState simRef).sub (s2.readState initial_state)
  let a2 := s2.allocState fwd_diff
  let fdRef := a2.1
  let fd := a2.2.readState fdRef
  let bwd_init : State c :=
    ⟨(qStepMat c).transpose.mulVec (-fd.flux) - fd.pressure, -fd.flux⟩
  let a3 := a2.2.allocState bwd_init
  let a4 := a3.2.allocState (a3.2.readState a3.1)
  let bRef := a4.1
  let s6 := runBackwardM (c.stepsPerPeriod - 1) bRef a4.2
  let bwd := s6.readState bRef
  let final_bwd : State c :=
    ⟨-bwd.pressure, -bwd.flux - (pStepMat c).transpose.mulVec bwd.pressure⟩
  let a5 := s6.allocState (final_bwd.sub (s6.readState fdRef))
  ((a5.1, fdRef), a5.2)

/-- Heap-level rendering of `compute_control_energy` (source lines 405-411):
the forward solver works on `state.copy()` and the caller's arrays are only
read. -/
def compute_control_energyM {c : Ctx} (state : HRef) (s0 : Store c) : ℚ × Store c :=
  let a1 := s0.allocState (s0.readState state)
  let s2 := (runForwardM (fun _ => 1) c.stepsPerPeriod a1.1 0 a1.2).2
  (((s2.readState a1.1).sub (s2.readState state)).energy, s2)

/-- Reference returned by the no-argument constructor `State()`: the
dataclass field defaults `np.zeros(...)` of the source (lines 180-181) are
evaluated once, at class-creation time, so every default-constructed `State`
holds this same pair of arrays, ids 0 and 1. -/
def defaultStateRef : HRef := ⟨0, 1⟩

/-- Store at module load: the two default arrays hold zeros and allocation
continues from id 2. -/
def initStore (c : Ctx) : Store c :=
  ⟨fun _ _ => 0, fun _ _ => 0, 2⟩

/-- Heap-level rendering of `eval_inc_wave_everywhere` (source lines
278-293): builds `State()` — which yields the shared default arrays — and
writes the incoming wave into them in place: every pressure entry is
overwritten, and every flux entry except the inner-boundary ones (the loop
skips those with `continue`, leaving whatever the array already held). -/
def eval_inc_wave_everywhereM {c : Ctx} (t : ℚ) (s0 : Store c) : HRef × Store c :=
  let r := defaultStateRef
  let old := s0.readState r
  let v : State c :=
    ⟨fun i => eval_inc_wave_pressure c t (c.circumcenter i),
     fun e =>
       if e ∈ c.innerBoundEdges then old.flux e
       else eval_inc_wave_flux c (t + 1 / 2 * c.dt) e⟩
  (r, s0.writeState r v)

/-- Frame predicate on stores: every array with id below `n` is unchanged,
and the allocation counter does not go backward. -/
def FramedAbove {c : Ctx} (n : ℕ) (s s' : Store c) : Prop :=
  (∀ i, i < n → s'.pMem i = s.pMem i) ∧ (∀ i, i < n → s'.qMem i = s.qMem i) ∧
    s.next ≤ s'.next

/-!
Concrete instances used for counterexamples and witnesses.
-/

/-- Minimal concrete mesh context for concrete evaluation: one face, three
edges — edge 0 on the inner boundary, edge 1 on the outer boundary (with the
face 0 as its unique adjacent face, unit length, orientation matching the
incidence entry), edge 2 interior — incidence row (1, 1, 1), unit Hodge
stars, `dt = 1` and one step per period.  It satisfies the mesh-data shape
of section 3 of the spec; the transcendental oracles are fixed to simple
values. -/
def ctxA : Ctx where
  nF := 1
  nE := 3
  d1 := Matrix.of fun _ _ => 1
  star2 := fun _ => 1
  star1inv := fun _ => 1
  dt := 1
  stepsPerPeriod := 1
  innerBoundEdges := [0]
  outerBound := [(1, ⟨0, 1, 1⟩)]
  incWaveVector := (1, 0)
  incAngularVel := 2
  vertices := fun _ => (0, 0)
  edgeVerts := fun _ => (0, 1)
  circumcenter := fun _ => (0, 0)
  sinQ := fun _ => 1
  cosQ := fun _ => 0
  sqrtQ := fun _ => 0

/-- Concrete conjugate-gradient state over `ctxA`: residual and search
direction put a unit flux on the interior edge, and the cached
`resid_norm_sq` is consistent with the residual. -/
def cgs0 : CGState ctxA where
  approx_solution := ⟨fun _ => 0, fun _ => 0⟩
  residual := ⟨fun _ => 0, fun e => if e.val = 2 then 1 else 0⟩
  resid_norm_sq := 1
  search_dir := ⟨fun _ => 0, fun e => if e.val = 2 then 1 else 0⟩
  control_energies := []
  resid_norms := []
  a_inner_prods := []

/-- The all-zero conjugate-gradient state over `ctxA`. -/
def cgsZero : CGState ctxA where
  approx_solution := ⟨fun _ => 0, fun _ => 0⟩
  residual := ⟨fun _ => 0, fun _ => 0⟩
  resid_norm_sq := 0
  search_dir := ⟨fun _ => 0, fun _ => 0⟩
  control_energies := []
  resid_norms := []
  a_inner_prods := []

/-!
Helper lemmas: a Python overwrite loop, folded with `Function.update`, acts
pointwise.
-/

/-- An overwrite loop indexed directly by edge indices acts pointwise: the
written value depends only on the index, so duplicates are harmless. -/
theorem overwriteList_id_apply {n : ℕ} (f : Fin n → ℚ) (l : List (Fin n))
    (v : Fin n → ℚ) (e : Fin n) :
    overwriteList f l id v e = if e ∈ l then v e else f e := by
  induction l generalizing f with
  | nil => simp [overwriteList]
  | cons a l ih =>
    simp only [overwriteList, List.foldl_cons] at ih ⊢
    rw [ih]
    by_cases he : e ∈ l
    · simp [he]
    · by_cases hea : e = a
      · subst hea
        simp [he, Function.update_same]
      · simp [he, hea, Function.update_noteq hea]

/-- An overwrite loop over records with pairwise-distinct keys acts
pointwise, selecting the unique record whose key matches. -/
theorem overwriteList_key_apply {n : ℕ} {α : Type} (f : Fin n → ℚ) (l : List α)
    (key : α → Fin n) (val : α → ℚ) (e : Fin n) :
    (l.map key).Nodup →
    overwriteList f l key val e =
      match l.find? (fun a => key a == e) with
      | some a => val a
      | none => f e := by
  induction l generalizing f with
  | nil =>
    intro _
    simp [overwriteList]
  | cons a l ih =>
    intro h
    rw [List.map_cons, List.nodup_cons] at h
    simp only [overwriteList, List.foldl_cons] at ih ⊢
    rw [ih (Function.update f (key a) (val a)) h.2]
    cases hb : key a == e with
    | true =>
      have hke : key a = e := by simpa using hb
      simp only [List.find?_cons, hb]
      have hnone : l.find? (fun b => key b == e) = none := by
        cases hf : l.find? fun b => key b == e with
        | none => rfl
        | some b =>
          have hbe : key b = e := by simpa using List.find?_some hf
          have hmem : key b ∈ l.map key := List.mem_map_of_mem key (List.mem_of_find?_eq_some hf)
          rw [hbe, ← hke] at hmem
          exact absurd hmem h.1
      rw [hnone]
      rw [← hke]
      exact Function.update_same (key a) (val a) f
    | false =>
      simp only [List.find?_cons, hb]
      have hne : e ≠ key a := by
        intro hc
        rw [hc] at hb
        simp at hb
      cases hf : l.find? fun b => key b == e with
      | none => exact Function.update_noteq hne (val a) f
      | some b => rfl

/-- Claim C2: one forward step, for every starting state and every
source-scaling function, performs exactly the spec's sequence — `t` advances
by `dt`; `pressure += P flux`; `t_half = t + dt/2` is formed from the updated
`t`; `flux += Q pressure` with the updated pressure; the flux at every
inner-boundary edge is then overwritten with
`source_scaling t_half * eval_inc_wave_flux t_half edge`; the flux at every
outer-boundary edge is then overwritten with
`-pressure[adjacent face] * length * orientation`; nothing else changes. -/
theorem claim2_forward_step_structure {c : Ctx}
    (h : (c.outerBound.map Prod.fst).Nodup)
    (sv : ForwardSolve c) (source_scaling : ℚ → ℚ) :
    sv.step source_scaling = forwardStepSpec sv source_scaling := by
  simp only [ForwardSolve.step, forwardStepSpec]
  congr 1
  congr 1
  funext e
  rw [overwriteList_key_apply _ _ _ _ _ h, overwriteList_id_apply]
  unfold outerLookup
  cases hf : c.outerBound.find? fun pr => pr.1 == e with
  | none => simp [hf]
  | some pr => simp [hf]

/-- Claim C3: one backward step performs exactly the spec's sequence, in
this order — `flux += P.T pressure`; the flux at every inner-boundary edge
is set to 0; the flux at every outer-boundary edge is overwritten with
`+pressure[adjacent face] * length * orientation`; and only then
`pressure += Q.T flux` with the already-updated flux. -/
theorem claim3_backward_step_structure {c : Ctx}
    (h : (c.outerBound.map Prod.fst).Nodup) (sv : BackwardSolve c) :
    sv.step = backwardStepSpec sv := by
  simp only [BackwardSolve.step, backwardStepSpec]
  have hflux :
      overwriteList
        (overwriteList (sv.state.flux + (pStepMat c).transpose.mulVec sv.state.pressure)
          c.innerBoundEdges id fun _ => 0)
        c.outerBound Prod.fst
        (fun pr => sv.state.pressure pr.2.dualVertIdx * pr.2.length * pr.2.orientation) =
      fun e =>
        match outerLookup c e with
        | some info => sv.state.pressure info.dualVertIdx * info.length * info.orientation
        | none =>
          if e ∈ c.innerBoundEdges then 0
          else (sv.state.flux + (pStepMat c).transpose.mulVec sv.state.pressure) e := by
    funext e
    rw [overwriteList_key_apply _ _ _ _ _ h, overwriteList_id_apply]
    unfold outerLookup
    cases hf : c.outerBound.find? fun pr => pr.1 == e with
    | none => simp [hf]
    | some pr => simp [hf]
  rw [hflux]

/-- The forward `for` loop agrees with function iteration. -/
theorem runForward_eq_iterate {c : Ctx} (scaling : ℚ → ℚ) (n : ℕ)
    (sv : ForwardSolve c) :
    runForward scaling n sv = (fun sv : ForwardSolve c => sv.step scaling)^[n] sv := by
  induction n generalizing sv with
  | zero => rfl
  | succ n ih => rw [runForward, ih, Function.iterate_succ_apply]

/-- The backward `for` loop agrees with function iteration. -/
theorem runBackward_eq_iterate {c : Ctx} (n : ℕ) (sv : BackwardSolve c) :
    runBackward n sv = (fun sv : BackwardSolve c => sv.step)^[n] sv := by
  induction n generalizing sv with
  | zero => rfl
  | succ n ih => rw [runBackward, ih, Function.iterate_succ_apply]

/-- Claim C4: for every initial state and every flag, the gradient
computation runs the forward solver for exactly `stepsPerPeriod` steps with
source scaling constantly 1 or 0, takes `forward_diff`, starts the backward
solver from `flux0 = -forward_diff.flux` and
`pressure0 = Q.T flux0 - forward_diff.pressure`, runs it for
`stepsPerPeriod - 1` steps, recombines with the negations, and returns
`gradient = final_bwd - forward_diff` together with `forward_diff`. -/
theorem claim4_cost_gradient_structure {c : Ctx} (initial_state : State c)
    (use_source_terms : Bool) :
    compute_cost_gradient initial_state use_source_terms =
      computeCostGradientSpec initial_state use_source_terms := by
  simp only [compute_cost_gradient, computeCostGradientSpec,
    runForward_eq_iterate, runBackward_eq_iterate]

/-- Claim C10: the energy reported by the gradient result of a sourced run
equals the standalone control-energy evaluation: both are the energy of the
periodicity defect of the same forward period. -/
theorem claim10_gradient_energy_eq_control_energy {c : Ctx} (s : State c) :
    (compute_cost_gradient s true).energy = compute_control_energy s := by
  simp only [compute_cost_gradient, GradientResult.energy, compute_control_energy,
    Bool.if_true_left]
  rfl

/-- Dot products commute past the diagonal boundary mask. -/
theorem maskMul_dotProduct (c : Ctx) (x y : Fin c.nE → ℚ) :
    Matrix.dotProduct (maskMul c x) y = Matrix.dotProduct x (maskMul c y) := by
  unfold maskMul Matrix.dotProduct
  exact Finset.sum_congr rfl fun e _ => by ring

/-- Moving a matrix across a dot product transposes it. -/
theorem mulVec_dotProduct_transfer {m n : ℕ} (A : Matrix (Fin m) (Fin n) ℚ)
    (x : Fin n → ℚ) (y : Fin m → ℚ) :
    Matrix.dotProduct (A.mulVec x) y = Matrix.dotProduct x (A.transpose.mulVec y) := by
  simp only [Matrix.mulVec, Matrix.dotProduct, Matrix.transpose_apply, Finset.sum_mul,
    Finset.mul_sum]
  rw [Finset.sum_comm]
  exact Finset.sum_congr rfl fun i _ => Finset.sum_congr rfl fun j _ => by ring

/-- Pointwise matrix form of the homogeneous forward step: the new pressure
is `pressure + P flux`, and the new flux is the boundary-masked leapfrog
update plus the outer absorbing operator applied to the new pressure. -/
theorem forwardHomStep_eq {c : Ctx} (h : (c.outerBound.map Prod.fst).Nodup)
    (t : ℚ) (u : State c) :
    forwardHomStep t u =
      ⟨u.pressure + (pStepMat c).mulVec u.flux,
       maskMul c (u.flux + (qStepMat c).mulVec (u.pressure + (pStepMat c).mulVec u.flux))
         + (outerMat c).mulVec (u.pressure + (pStepMat c).mulVec u.flux)⟩ := by
  unfold forwardHomStep
  simp only [ForwardSolve.step]
  congr 1
  funext e
  rw [overwriteList_key_apply _ _ _ _ _ h, overwriteList_id_apply]
  cases hf : c.outerBound.find? fun a => a.1 == e with
  | some pr =>
    simp only [hf, Pi.add_apply, maskMul, boundaryMask, outerLookup, Option.map_some,
      Option.map_some', Matrix.mulVec, Matrix.dotProduct, outerMat, Matrix.of_apply,
      ite_mul, zero_mul, neg_mul, Finset.sum_ite_eq', Finset.mem_univ, if_true, ite_self]
    ring
  | none =>
    by_cases hin : e ∈ c.innerBoundEdges
    · simp only [hf, hin, if_true, Pi.add_apply, maskMul, boundaryMask, outerLookup,
        Option.map_none, Option.map_none', Matrix.mulVec, Matrix.dotProduct, outerMat,
        Matrix.of_apply, zero_mul, Finset.sum_const_zero, ite_self]
      ring
    · simp only [hf, hin, if_false, Pi.add_apply, maskMul, boundaryMask, outerLookup,
        Option.map_none, Option.map_none', Matrix.mulVec, Matrix.dotProduct, outerMat,
        Matrix.of_apply, zero_mul, Finset.sum_const_zero, ite_self]
      ring

/-- Claim C1 counterexample: over the concrete context `ctxA`, with `u` and
`v` both the state of unit pressure and zero flux, one homogeneous forward
step of `u` dotted with `v` gives 1 while `u` dotted with one backward step
of `v` gives 3: the per-step adjoint identity claimed by the spec fails in
exact arithmetic. -/
theorem claim1_counterexample :
    (forwardHomStep 0 (⟨fun _ => 1, fun _ => 0⟩ : State ctxA)).dot
        ⟨fun _ => 1, fun _ => 0⟩ ≠
      State.dot (⟨fun _ => 1, fun _ => 0⟩ : State ctxA)
        (BackwardSolve.step (⟨⟨fun _ => 1, fun _ => 0⟩⟩ : BackwardSolve ctxA)).state := by
  with_unfolding_all decide

/-- Claim C1, corrected: `BackwardSolve.step` is not the `State.dot`-adjoint
of the homogeneous forward step.  The exact adjoint of the homogeneous
forward step is instead `forwardHomAdjoint`: the map sending `v` to the
state with pressure `p1 = v.pressure + Q.T (M v.flux) + R.T v.flux` and flux
`M v.flux + P.T p1`, where `M` is the boundary mask and `R` the outer
absorbing operator.  For every context with distinct outer-boundary edges
and all states `u`, `v`, the inner product of the stepped `u` with `v`
equals the inner product of `u` with `forwardHomAdjoint v`. -/
theorem claim1_adjoint_corrected {c : Ctx} (h : (c.outerBound.map Prod.fst).Nodup)
    (t : ℚ) (u v : State c) :
    (forwardHomStep t u).dot v = u.dot (forwardHomAdjoint v) := by
  rw [forwardHomStep_eq h]
  simp only [State.dot, forwardHomAdjoint, Matrix.add_dotProduct, Matrix.dotProduct_add,
    Matrix.mulVec_add, maskMul_dotProduct, mulVec_dotProduct_transfer]
  ring

/-- Witness for the corrected claim C1 at the concrete context `ctxA`. -/
theorem claim1_adjoint_corrected_witness :
    (ctxA.outerBound.map Prod.fst).Nodup ∧
      (forwardHomStep 0 (⟨fun _ => 1, fun _ => 0⟩ : State ctxA)).dot
          ⟨fun _ => 0, fun e => if e.val = 2 then 1 else 0⟩ =
        State.dot (⟨fun _ => 1, fun _ => 0⟩ : State ctxA)
          (forwardHomAdjoint (⟨fun _ => 0, fun e => if e.val = 2 then 1 else 0⟩ : State ctxA)) :=
  ⟨by decide, claim1_adjoint_corrected (by decide) 0 _ _⟩

/-- Claim C5: under the loop invariant that the cached `resid_norm_sq`
equals the residual's squared norm, and with a nonzero step-length
denominator, one conjugate-gradient iteration performs exactly the classical
formulas of `cgSpecStep`, including recording `Aw.dot search_dir_new` as the
conjugacy diagnostic. -/
theorem claim5_cg_iteration_formulas {c : Ctx} (s : CGState c)
    (hinv : s.resid_norm_sq = s.residual.dot s.residual)
    (hden : (compute_cost_gradient s.search_dir false).gradient.dot s.search_dir ≠ 0) :
    cgIter s = some (cgSpecStep s) := by
  simp only [cgIter, cdiv, cgSpecStep]
  rw [if_neg hden, hinv]
  rfl

/-- Witness for claim C5: at the concrete state `cgs0` both hypotheses hold
and the iteration computes the classical step. -/
theorem claim5_cg_iteration_formulas_witness :
    (cgs0.resid_norm_sq = cgs0.residual.dot cgs0.residual ∧
      (compute_cost_gradient cgs0.search_dir false).gradient.dot cgs0.search_dir ≠ 0) ∧
      cgIter cgs0 = some (cgSpecStep cgs0) :=
  ⟨⟨by with_unfolding_all decide, by with_unfolding_all decide⟩,
    claim5_cg_iteration_formulas cgs0 (by with_unfolding_all decide)
      (by with_unfolding_all decide)⟩

/-- Claim C6: the conjugate-gradient loop terminates exactly when the
relative squared residual norm drops below `stop_condition_sq = (1e-2)^2`
after an iteration, or when the iteration budget is exhausted, whichever
comes first; in both cases it returns (rather than raising) the current
state together with the number of iterations actually performed.  The
hypothesis asks that no reachable iteration divides by a zero denominator
(in the source such an iteration would poison the run with non-finite
values, not raise). -/
theorem claim6_cg_loop_termination {c : Ctx} (initial_resid_norm_sq : ℚ)
    (fuel : ℕ) (s : CGState c) (hs : (cgIterN fuel s).isSome) :
    ∃ r k, cgLoop initial_resid_norm_sq fuel s = some (r, k) ∧ k ≤ fuel ∧
      cgIterN k s = some r ∧ (0 < fuel → 0 < k) ∧
      (k = fuel ∨ r.resid_norm_sq / initial_resid_norm_sq < stop_condition_sq) ∧
      (∀ j r', 0 < j → j < k → cgIterN j s = some r' →
        ¬ r'.resid_norm_sq / initial_resid_norm_sq < stop_condition_sq) := by
  induction fuel generalizing s with
  | zero =>
    exact ⟨s, 0, rfl, Nat.le_refl 0, rfl, by omega, Or.inl rfl, by omega⟩
  | succ fuel ih =>
    cases hstep : cgIter s with
    | none =>
      rw [cgIterN, hstep] at hs
      simp at hs
    | some s1 =>
      rw [cgIterN, hstep] at hs
      have hs1 : (cgIterN fuel s1).isSome := hs
      by_cases hstop : s1.resid_norm_sq / initial_resid_norm_sq < stop_condition_sq
      · refine ⟨s1, 1, ?_, by omega, ?_, by omega, Or.inr hstop, ?_⟩
        · rw [cgLoop, hstep]
          simp [hstop]
        · rw [cgIterN, hstep]
          rfl
        · intro j r' hj hjk
          omega
      · obtain ⟨r, k, hloop, hk, hiter, _, hfin, hmin⟩ := ih s1 hs1
        refine ⟨r, k + 1, ?_, by omega, ?_, by omega, ?_, ?_⟩
        · rw [cgLoop, hstep]
          simp only [hstop, if_false, hloop, Option.map_some']
        · rw [cgIterN, hstep]
          exact hiter
        · rcases hfin with h1 | h2
          · exact Or.inl (by omega)
          · exact Or.inr h2
        · intro j r' hj hjk hj'
          cases j with
          | zero => omega
          | succ j0 =>
            rw [cgIterN, hstep] at hj'
            cases Nat.eq_zero_or_pos j0 with
            | inl h0 =>
              subst h0
              have hr' : r' = s1 := by
                have : some s1 = some r' := hj'
                exact (Option.some.injEq _ _ ▸ this).symm
              rw [hr']
              exact hstop
            | inr hpos0 =>
              exact hmin j0 r' hpos0 (by omega) hj'

/-- Witness for claim C6: one iteration of budget from the concrete state
`cgs0`, whose single iteration succeeds. -/
theorem claim6_cg_loop_termination_witness :
    (cgIterN 1 cgs0).isSome ∧
      ∃ r k, cgLoop 1 1 cgs0 = some (r, k) ∧ k ≤ 1 ∧
        cgIterN k cgs0 = some r ∧ (0 < 1 → 0 < k) ∧
        (k = 1 ∨ r.resid_norm_sq / 1 < stop_condition_sq) ∧
        (∀ j r', 0 < j → j < k → cgIterN j cgs0 = some r' →
          ¬ r'.resid_norm_sq / 1 < stop_condition_sq) :=
  ⟨by with_unfolding_all decide,
    claim6_cg_loop_termination 1 1 cgs0 (by with_unfolding_all decide)⟩

/-- Claim C7 counterexample: the conjugate-gradient step-length division is
not guarded by any threshold.  At the all-zero conjugate-gradient state the
denominator `Aw.dot search_dir` is exactly 0 — below every positive
threshold — and the iteration still divides by it, producing a non-finite
value (`none` in the checked-division model), so the claim that neither
computation can produce NaN/Inf fails on the code. -/
theorem claim7_counterexample :
    (compute_cost_gradient cgsZero.search_dir false).gradient.dot cgsZero.search_dir = 0 ∧
      (cgIter cgsZero).isNone = true := by
  with_unfolding_all decide

/-- Claim C7, corrected, provable half: the edge-flux evaluation is guarded —
whenever `|kdotl| < 1e-5`, `eval_inc_wave_flux` returns the closed-form
limiting formula `-kdotn * sin(waveAngle - kdotp)` and performs no division;
its division branch only ever divides by a denominator of magnitude at
least `1e-5`.  (The conjugate-gradient step-length division has no such
guard: see the counterexample.) -/
theorem claim7_edge_flux_guarded {c : Ctx} (t : ℚ) (e : Fin c.nE)
    (h : |edgeKdotl c e| < 1 / 100000) :
    eval_inc_wave_flux c t e =
      -edgeKdotn c e * c.sinQ (c.incAngularVel * t - edgeKdotp c e) := by
  unfold eval_inc_wave_flux
  rw [if_pos h]

/-- Witness for claim C7's guard theorem: edge 0 of `ctxA` is degenerate,
its `kdotl` is 0, and the fallback formula is returned. -/
theorem claim7_edge_flux_guarded_witness :
    |edgeKdotl ctxA ⟨0, by decide⟩| < 1 / 100000 ∧
      eval_inc_wave_flux ctxA 0 ⟨0, by decide⟩ =
        -edgeKdotn ctxA ⟨0, by decide⟩ *
          ctxA.sinQ (ctxA.incAngularVel * 0 - edgeKdotp ctxA ⟨0, by decide⟩) :=
  ⟨by with_unfolding_all decide,
    claim7_edge_flux_guarded 0 _ (by with_unfolding_all decide)⟩

/-- The frame predicate composes. -/
theorem framedAbove_trans {c : Ctx} {n : ℕ} {s1 s2 s3 : Store c}
    (h1 : FramedAbove n s1 s2) (h2 : FramedAbove n s2 s3) : FramedAbove n s1 s3 :=
  ⟨fun i hi => (h2.1 i hi).trans (h1.1 i hi),
   fun i hi => (h2.2.1 i hi).trans (h1.2.1 i hi),
   Nat.le_trans h1.2.2 h2.2.2⟩

/-- Writing through a reference whose ids lie at or above `n` frames the
arrays below `n`. -/
theorem writeState_framed {c : Ctx} {n : ℕ} (s : Store c) (r : HRef) (v : State c)
    (hp : n ≤ r.pId) (hq : n ≤ r.qId) : FramedAbove n s (s.writeState r v) :=
  ⟨fun i hi => Function.update_noteq (by omega) _ _,
   fun i hi => Function.update_noteq (by omega) _ _,
   Nat.le_refl _⟩

/-- Allocation frames the arrays below the allocation counter. -/
theorem allocState_framed {c : Ctx} {n : ℕ} (s : Store c) (v : State c)
    (hn : n ≤ s.next) : FramedAbove n s (s.allocState v).2 :=
  ⟨fun i hi => Function.update_noteq (by omega) _ _,
   fun i hi => Function.update_noteq (by omega) _ _,
   Nat.le_add_right _ 2⟩

/-- The forward solver loop only writes its own two arrays. -/
theorem runForwardM_framed {c : Ctx} {n : ℕ} (scaling : ℚ → ℚ) (k : ℕ) (r : HRef)
    (t : ℚ) (s : Store c) (hp : n ≤ r.pId) (hq : n ≤ r.qId) :
    FramedAbove n s (runForwardM scaling k r t s).2 := by
  induction k generalizing t s with
  | zero => exact ⟨fun _ _ => rfl, fun _ _ => rfl, Nat.le_refl _⟩
  | succ k ih =>
    simp only [runForwardM]
    exact framedAbove_trans (writeState_framed _ _ _ hp hq) (ih _ _)

/-- The backward solver loop only writes its own two arrays. -/
theorem runBackwardM_framed {c : Ctx} {n : ℕ} (k : ℕ) (r : HRef) (s : Store c)
    (hp : n ≤ r.pId) (hq : n ≤ r.qId) :
    FramedAbove n s (runBackwardM k r s) := by
  induction k generalizing s with
  | zero => exact ⟨fun _ _ => rfl, fun _ _ => rfl, Nat.le_refl _⟩
  | succ k ih =>
    simp only [runBackwardM, backwardStepM]
    exact framedAbove_trans (writeState_framed _ _ _ hp hq) (ih _)

/-- The whole gradient computation frames every array that existed before
the call: it writes only the copies and temporaries it allocates itself. -/
theorem compute_cost_gradientM_framed {c : Ctx} (r : HRef) (b : Bool) (s0 : Store c) :
    FramedAbove s0.next s0 (compute_cost_gradientM r b s0).2 := by
  simp only [compute_cost_gradientM]
  set a1 := s0.allocState (s0.readState r) with ha1
  set s2 := (runForwardM (if b then fun _ => (1 : ℚ) else fun _ => 0)
    c.stepsPerPeriod a1.1 0 a1.2).2 with hs2
  set a2 := s2.allocState ((s2.readState a1.1).sub (s2.readState r)) with ha2
  set a3 := a2.2.allocState
    ⟨(qStepMat c).transpose.mulVec (-(a2.2.readState a2.1).flux) -
        (a2.2.readState a2.1).pressure, -(a2.2.readState a2.1).flux⟩ with ha3
  set a4 := a3.2.allocState (a3.2.readState a3.1) with ha4
  set s6 := runBackwardM (c.stepsPerPeriod - 1) a4.1 a4.2 with hs6
  have h1 : FramedAbove s0.next s0 a1.2 := allocState_framed _ _ (Nat.le_refl _)
  have h2 : FramedAbove s0.next a1.2 s2 :=
    runForwardM_framed _ _ _ _ _ (Nat.le_refl _) (Nat.le_succ _)
  have h12 := framedAbove_trans h1 h2
  have h3 : FramedAbove s0.next s2 a2.2 := allocState_framed _ _ h12.2.2
  have h13 := framedAbove_trans h12 h3
  have h4 : FramedAbove s0.next a2.2 a3.2 := allocState_framed _ _ h13.2.2
  have h14 := framedAbove_trans h13 h4
  have h5 : FramedAbove s0.next a3.2 a4.2 := allocState_framed _ _ h14.2.2
  have h15 := framedAbove_trans h14 h5
  have h6 : FramedAbove s0.next a4.2 s6 :=
    runBackwardM_framed _ _ _ (Nat.le_trans h14.2.2 (Nat.le_refl _))
      (Nat.le_trans h14.2.2 (Nat.le_succ _))
  have h16 := framedAbove_trans h15 h6
  have h7 : FramedAbove s0.next s6 (s6.allocState
      ((⟨-(s6.readState a4.1).pressure,
          -(s6.readState a4.1).flux -
            (pStepMat c).transpose.mulVec (s6.readState a4.1).pressure⟩ : State c).sub
        (s6.readState a2.1))).2 := allocState_framed _ _ h16.2.2
  exact framedAbove_trans h16 h7

/-- The control-energy evaluation frames every array that existed before the
call. -/
theorem compute_control_energyM_framed {c : Ctx} (r : HRef) (s0 : Store c) :
    FramedAbove s0.next s0 (compute_control_energyM r s0).2 := by
  simp only [compute_control_energyM]
  have h1 : FramedAbove s0.next s0 (s0.allocState (s0.readState r)).2 :=
    allocState_framed _ _ (Nat.le_refl _)
  have h2 : FramedAbove s0.next (s0.allocState (s0.readState r)).2
      (runForwardM (fun _ => 1) c.stepsPerPeriod (s0.allocState (s0.readState r)).1 0
        (s0.allocState (s0.readState r)).2).2 :=
    runForwardM_framed _ _ _ _ _ (Nat.le_refl _) (Nat.le_succ _)
  exact framedAbove_trans h1 h2

/-- Claim C8: for every store, every valid state reference and both flag
values, `compute_cost_gradient` and `compute_control_energy` leave the
caller's state untouched: both its pressure array and its flux array hold
exactly their values from before the call — each evaluator simulates on a
copy and never writes the caller's arrays. -/
theorem claim8_evaluators_preserve_input {c : Ctx} (s0 : Store c) (r : HRef) (b : Bool)
    (hp : r.pId < s0.next) (hq : r.qId < s0.next) :
    ((compute_cost_gradientM r b s0).2.pMem r.pId = s0.pMem r.pId ∧
      (compute_cost_gradientM r b s0).2.qMem r.qId = s0.qMem r.qId) ∧
    ((compute_control_energyM r s0).2.pMem r.pId = s0.pMem r.pId ∧
      (compute_control_energyM r s0).2.qMem r.qId = s0.qMem r.qId) :=
  ⟨⟨(compute_cost_gradientM_framed r b s0).1 r.pId hp,
    (compute_cost_gradientM_framed r b s0).2.1 r.qId hq⟩,
   ⟨(compute_control_energyM_framed r s0).1 r.pId hp,
    (compute_control_energyM_framed r s0).2.1 r.qId hq⟩⟩

/-- Witness for claim C8 at the concrete context `ctxA`, with the default
arrays as the caller's state. -/
theorem claim8_evaluators_preserve_input_witness :
    (defaultStateRef.pId < (initStore ctxA).next ∧
      defaultStateRef.qId < (initStore ctxA).next) ∧
    (((compute_cost_gradientM defaultStateRef true (initStore ctxA)).2.pMem
          defaultStateRef.pId = (initStore ctxA).pMem defaultStateRef.pId ∧
       (compute_cost_gradientM defaultStateRef true (initStore ctxA)).2.qMem
          defaultStateRef.qId = (initStore ctxA).qMem defaultStateRef.qId) ∧
     ((compute_control_energyM defaultStateRef (initStore ctxA)).2.pMem
          defaultStateRef.pId = (initStore ctxA).pMem defaultStateRef.pId ∧
       (compute_control_energyM defaultStateRef (initStore ctxA)).2.qMem
          defaultStateRef.qId = (initStore ctxA).qMem defaultStateRef.qId)) :=
  ⟨⟨by decide, by decide⟩,
    claim8_evaluators_preserve_input (initStore ctxA) defaultStateRef true
      (by decide) (by decide)⟩

/-- Claim C9 counterexample: the dataclass field defaults of `State` are a
single pair of arrays created at class definition time, and
`eval_inc_wave_everywhere` mutates them in place; after one call (here at
`t = 0` over `ctxA`, starting from the module-load store), a
default-constructed `State()` — reading through `defaultStateRef` — has
pressure 2 at face 0, not 0: separately created default states share
mutable storage and are not the zero state at every point of the run. -/
theorem claim9_counterexample :
    ((eval_inc_wave_everywhereM 0 (initStore ctxA)).2.readState defaultStateRef).pressure
      ⟨0, by decide⟩ ≠ 0 := by
  with_unfolding_all decide

/-- Claim C9, corrected, provable half: `state.copy()` — and likewise every
explicit `State(...)` construction — allocates fresh arrays: the copy's array
ids differ from the original's, the copy holds the original's values, and
overwriting the copy's arrays leaves the original's arrays exactly as they
were.  Only the no-argument constructor `State()` aliases (every such state
shares the one default pair of arrays). -/
theorem claim9_copy_unaliased {c : Ctx} (s : Store c) (r : HRef) (v : State c)
    (hp : r.pId < s.next) (hq : r.qId < s.next) :
    (s.allocState (s.readState r)).1.pId ≠ r.pId ∧
    (s.allocState (s.readState r)).1.qId ≠ r.qId ∧
    (s.allocState (s.readState r)).2.readState (s.allocState (s.readState r)).1 =
      s.readState r ∧
    ((s.allocState (s.readState r)).2.writeState (s.allocState (s.readState r)).1 v).pMem
      r.pId = s.pMem r.pId ∧
    ((s.allocState (s.readState r)).2.writeState (s.allocState (s.readState r)).1 v).qMem
      r.qId = s.qMem r.qId := by
  have hne : r.pId ≠ s.next := by omega
  have hne2 : r.qId ≠ s.next + 1 := by omega
  refine ⟨?_, ?_, ?_, ?_, ?_⟩
  · show s.next ≠ r.pId
    omega
  · show s.next + 1 ≠ r.qId
    omega
  · simp [Store.allocState, Store.readState]
  · show Function.update (Function.update s.pMem s.next _) s.next v.pressure r.pId =
      s.pMem r.pId
    rw [Function.update_noteq hne, Function.update_noteq hne]
  · show Function.update (Function.update s.qMem (s.next + 1) _) (s.next + 1) v.flux r.qId =
      s.qMem r.qId
    rw [Function.update_noteq hne2, Function.update_noteq hne2]

/-- Witness for the corrected claim C9 on the concrete module-load store. -/
theorem claim9_copy_unaliased_witness :
    (defaultStateRef.pId < (initStore ctxA).next ∧
      defaultStateRef.qId < (initStore ctxA).next) ∧
    ((initStore ctxA).allocState ((initStore ctxA).readState defaultStateRef)).1.pId ≠
        defaultStateRef.pId ∧
      ((initStore ctxA).allocState ((initStore ctxA).readState defaultStateRef)).1.qId ≠
        defaultStateRef.qId ∧
      ((initStore ctxA).allocState
            ((initStore ctxA).readState defaultStateRef)).2.readState
          ((initStore ctxA).allocState ((initStore ctxA).readState defaultStateRef)).1 =
        (initStore ctxA).readState defaultStateRef ∧
      (((initStore ctxA).allocState
              ((initStore ctxA).readState defaultStateRef)).2.writeState
            ((initStore ctxA).allocState ((initStore ctxA).readState defaultStateRef)).1
            ⟨fun _ => 5, fun _ => 5⟩).pMem defaultStateRef.pId =
        (initStore ctxA).pMem defaultStateRef.pId ∧
      (((initStore ctxA).allocState
              ((initStore ctxA).readState defaultStateRef)).2.writeState
            ((initStore ctxA).allocState ((initStore ctxA).readState defaultStateRef)).1
            ⟨fun _ => 5, fun _ => 5⟩).qMem defaultStateRef.qId =
        (initStore ctxA).qMem defaultStateRef.qId :=
  ⟨⟨by decide, by decide⟩,
    claim9_copy_unaliased (initStore ctxA) defaultStateRef ⟨fun _ => 5, fun _ => 5⟩
      (by decide) (by decide)⟩

/-- Witness for claim C2 at the concrete context `ctxA`. -/
theorem claim2_forward_step_structure_witness :
    (ctxA.outerBound.map Prod.fst).Nodup ∧
      ForwardSolve.step (⟨⟨fun _ => 1, fun _ => 1⟩, 0⟩ : ForwardSolve ctxA) (fun _ => 1) =
        forwardStepSpec (⟨⟨fun _ => 1, fun _ => 1⟩, 0⟩ : ForwardSolve ctxA) (fun _ => 1) :=
  ⟨by decide, claim2_forward_step_structure (by decide) _ _⟩

/-- Witness for claim C3 at the concrete context `ctxA`. -/
theorem claim3_backward_step_structure_witness :
    (ctxA.outerBound.map Prod.fst).Nodup ∧
      BackwardSolve.step (⟨⟨fun _ => 1, fun _ => 1⟩⟩ : BackwardSolve ctxA) =
        backwardStepSpec (⟨⟨fun _ => 1, fun _ => 1⟩⟩ : BackwardSolve ctxA) :=
  ⟨by decide, claim3_backward_step_structure (by decide) _⟩

end ScattererControl
